import Mathlib

/-!
Shallow embedding of the agent core (the startup/shutdown orchestrator):
`NewAgent`, `Agent.Start`, `Agent.Stop`, `Agent.initPlugins`,
`Agent.handleAfterInit`, translated from `core/agent_core.go`.

Fallible plugin operations are scripted: `none` means the call succeeds,
`some msg` means it fails with message `msg`.  Wall-clock measurements
(`time.Since`) are environment inputs `e1 e2 : Nat` (a monotonic-clock
duration is non-negative).  An event trace records which plugin
operations actually run, in execution order.
-/

/-- Scripted result of a fallible call: `none` = success. -/
abbrev Res := Option String

/-- Modelled from the spec: the plugin capability set (the `Plugin` and
`PostInit` interface declarations live outside `src/`).  `initRes`
scripts the mandatory `Init`; `afterInitImpl = some r` means the plugin
satisfies the optional post-initialize capability with scripted result
`r`; `closeImpl = some r` likewise for the optional release capability
("absence is treated as nothing to release, not an error").
`initTookNs`/`afterInitTookNs` script the per-call elapsed times that the
orchestrator embeds in its error values. -/
structure Plugin where
  initRes : Res
  initTookNs : Nat
  afterInitImpl : Option Res
  afterInitTookNs : Nat
  closeImpl : Option Res
deriving DecidableEq

/-- Modelled from the spec: `NamedPlugin` (declared outside `src/`) is an
immutable pair of a name and a plugin reference.  `wrapperCloseImpl`
records whether the wrapper value itself satisfies the optional release
capability when handed to `safeclose.Close` (the missing interface
declarations decide this, so the model keeps it as an explicit field). -/
structure NamedPlugin where
  PluginName : String
  Plugin : Plugin
  wrapperCloseImpl : Option Res
deriving DecidableEq

/-- Observable plugin operations, in execution order.  `closeWrapper` is a
release that ran on a `NamedPlugin` wrapper value (the phase-1 rollback
path passes `agent.plugins[i]`); `closePlugin` is a release that ran on
the wrapped `Plugin` field (the `Stop` path passes
`agent.plugins[i].Plugin`). -/
inductive Event where
  | init (name : String)
  | afterInit (name : String)
  | closeWrapper (name : String)
  | closePlugin (name : String)
deriving DecidableEq

/-- Go `error` values produced by the agent core.  `initError`,
`afterInitError` and `timeoutError` are the `fmt.Errorf` values built
from `logErrorFmt`, `logAfterErrorFmt` and `logTimeoutFmt`; `errorsNew`
is the `errors.New(errMsg)` aggregate built by `Stop`; `plain` is a raw
plugin error propagated unchanged (as the rollback loop does with a
release error). -/
inductive GoError where
  | initError (plugin cause : String) (tookNs : Nat)
  | afterInitError (plugin cause : String) (tookNs : Nat)
  | timeoutError (plugin : String)
  | errorsNew (msg : String)
  | plain (msg : String)
deriving DecidableEq

/-- Modelled from the spec: `safeclose.Close` (outside `src/`) applied to
a `NamedPlugin` wrapper value: it performs the runtime release-capability
check on the wrapper; if the capability is present the release runs and
its result is returned, otherwise there is nothing to release. -/
def safecloseCloseWrapper (np : NamedPlugin) : Res × List Event :=
  match np.wrapperCloseImpl with
  | none => (none, [])
  | some r => (r, [Event.closeWrapper np.PluginName])

/-- Modelled from the spec: `safeclose.Close` (outside `src/`) applied to
the wrapped `Plugin` field, as `Stop` does. -/
def safecloseClosePlugin (np : NamedPlugin) : Res × List Event :=
  match np.Plugin.closeImpl with
  | none => (none, [])
  | some r => (r, [Event.closePlugin np.PluginName])

/-- The `Agent`, with the fields of its embedded `startup` struct
flattened in (Go zero values are supplied by `NewAgent`). -/
structure Agent where
  plugins : List NamedPlugin
  MaxStartupTime : Int
  initDuration : Int
  afterInitDuration : Int
  currentlyProcessing : String
deriving DecidableEq

/-- `defaultTimerValue = -1`, the sentinel meaning "phase timer still
running". -/
def defaultTimerValue : Int := -1

/-- `NewAgent`: the logger is behaviourally inert and omitted. -/
def NewAgent (maxStartup : Int) (plugins : List NamedPlugin) : Agent :=
  { plugins := plugins, MaxStartupTime := maxStartup,
    initDuration := 0, afterInitDuration := 0, currentlyProcessing := "" }

/-- Loop state of `initPlugins`: the locals `initPluginCounter`,
`pluginFailed`, `wasError`, the agent field `currentlyProcessing`, and
the trace of operations run. -/
structure InitLoopSt where
  initPluginCounter : Nat
  pluginFailed : Bool
  wasError : Option GoError
  currentlyProcessing : String
  trace : List Event
deriving DecidableEq

/-- The `for index, plugin := range agent.plugins` loop of `initPlugins`:
`initPluginCounter` and `currentlyProcessing` are updated for every
index, before the `pluginFailed` skip check; `Init` runs only while no
previous plugin failed. -/
def initLoop (pluginFailed : Bool) (wasError : Option GoError)
    (counter idx : Nat) (cp : String) : List NamedPlugin → InitLoopSt
  | [] => ⟨counter, pluginFailed, wasError, cp, []⟩
  | np :: rest =>
    if pluginFailed then
      initLoop true wasError idx (idx + 1) np.PluginName rest
    else
      match np.Plugin.initRes with
      | some cause =>
        let s := initLoop true
          (some (GoError.initError np.PluginName cause np.Plugin.initTookNs))
          idx (idx + 1) np.PluginName rest
        { s with trace := Event.init np.PluginName :: s.trace }
      | none =>
        let s := initLoop false wasError idx (idx + 1) np.PluginName rest
        { s with trace := Event.init np.PluginName :: s.trace }

/-- One iteration of the rollback loop: `safeclose.Close` on the wrapper
`agent.plugins[i]`; a non-nil error overwrites `wasError`. -/
def rollbackStep (plugins : List NamedPlugin) (wasError : GoError) (i : Nat) :
    GoError × List Event :=
  match plugins[i]? with
  | none => (wasError, [])
  | some np =>
    let r := safecloseCloseWrapper np
    match r.1 with
    | some cause => (GoError.plain cause, r.2)
    | none => (wasError, r.2)

/-- The `for i := initPluginCounter; i >= 0; i--` rollback loop of
`initPlugins`, visiting indices `i, i-1, …, 0`. -/
def rollbackLoop (plugins : List NamedPlugin) (wasError : GoError) :
    Nat → GoError × List Event
  | 0 => rollbackStep plugins wasError 0
  | i + 1 =>
    let st := rollbackStep plugins wasError (i + 1)
    let s := rollbackLoop plugins st.1 i
    (s.1, st.2 ++ s.2)

/-- `Agent.initPlugins` (phase 1): runs the init loop, stamps
`initDuration` with the phase's `time.Since` measurement `e1`, and when
`wasError` is non-nil runs the rollback loop from the final
`initPluginCounter` down to `0`, returning the (possibly overwritten)
error. -/
def Agent.initPlugins (ag : Agent) (e1 : Nat) :
    Option GoError × Agent × List Event :=
  let s := initLoop false none 0 0 ag.currentlyProcessing ag.plugins
  let ag1 : Agent := { ag with
    currentlyProcessing := s.currentlyProcessing,
    initDuration := (e1 : Int) }
  match s.wasError with
  | some e =>
    let rb := rollbackLoop ag.plugins e s.initPluginCounter
    (some rb.1, ag1, s.trace ++ rb.2)
  | none => (none, ag1, s.trace)

/-- Loop state of `handleAfterInit`. -/
structure AfterLoopSt where
  pluginFailed : Bool
  wasError : Option GoError
  currentlyProcessing : String
  trace : List Event
deriving DecidableEq

/-- The `for _, plug := range agent.plugins` loop of `handleAfterInit`:
`currentlyProcessing` is updated for every plugin before the skip check;
`AfterInit` runs only for plugins satisfying the post-initialize
capability and only while no previous plugin failed. -/
def afterLoop (pluginFailed : Bool) (wasError : Option GoError) (cp : String) :
    List NamedPlugin → AfterLoopSt
  | [] => ⟨pluginFailed, wasError, cp, []⟩
  | np :: rest =>
    if pluginFailed then
      afterLoop true wasError np.PluginName rest
    else
      match np.Plugin.afterInitImpl with
      | none => afterLoop false wasError np.PluginName rest
      | some (some cause) =>
        let s := afterLoop true
          (some (GoError.afterInitError np.PluginName cause np.Plugin.afterInitTookNs))
          np.PluginName rest
        { s with trace := Event.afterInit np.PluginName :: s.trace }
      | some none =>
        let s := afterLoop false wasError np.PluginName rest
        { s with trace := Event.afterInit np.PluginName :: s.trace }

/-- The reverse-order loop of `Stop`, running over `plugins.reverse`:
`safeclose.Close` on the wrapped `Plugin` field; each failure appends
`"; "` (when `errMsg` is non-empty) then the plugin name, `": "` and the
cause. -/
def stopLoop (errMsg : String) : List NamedPlugin → String × List Event
  | [] => (errMsg, [])
  | np :: rest =>
    let r := safecloseClosePlugin np
    let errMsg2 := match r.1 with
      | some cause =>
        (if errMsg.length > 0 then errMsg ++ "; " else errMsg)
          ++ np.PluginName ++ ": " ++ cause
      | none => errMsg
    let s := stopLoop errMsg2 rest
    (s.1, r.2 ++ s.2)

/-- `Agent.Stop`: best-effort teardown in strict reverse registry order;
returns `errors.New(errMsg)` when `errMsg` is non-empty, nil otherwise. -/
def Agent.Stop (ag : Agent) : Option GoError × List Event :=
  let s := stopLoop "" ag.plugins.reverse
  (if s.1.length > 0 then some (GoError.errorsNew s.1) else none, s.2)

/-- `Agent.handleAfterInit` (phase 2): runs the after-init loop, stamps
`afterInitDuration` with the phase's `time.Since` measurement `e2`, and
on failure invokes the full `Stop` teardown, discarding its result (the
`agent.Stop()` call ignores the returned error). -/
def Agent.handleAfterInit (ag : Agent) (e2 : Nat) :
    Option GoError × Agent × List Event :=
  let s := afterLoop false none ag.currentlyProcessing ag.plugins
  let ag1 : Agent := { ag with
    currentlyProcessing := s.currentlyProcessing,
    afterInitDuration := (e2 : Int) }
  match s.wasError with
  | some e =>
    let st := ag1.Stop
    (some e, ag1, s.trace ++ st.2)
  | none => (none, ag1, s.trace)

/-- The body of the background goroutine launched by `Start`: phase 1,
then, only on phase-1 success, phase 2. -/
def Agent.pipeline (ag : Agent) (e1 e2 : Nat) :
    Option GoError × Agent × List Event :=
  match ag.initPlugins e1 with
  | (some err, ag1, tr) => (some err, ag1, tr)
  | (none, ag1, tr) =>
    let h := ag1.handleAfterInit e2
    (h.1, h.2.1, tr ++ h.2.2)

/-- The successive agent states written by the background pipeline, in
program order: `initDuration := -1`, then `currentlyProcessing` per
plugin, then `initDuration := e1`; on phase-1 success also
`afterInitDuration := -1`, `currentlyProcessing` per plugin, and
`afterInitDuration := e2`.  These are the instants at which the deadline
timer can fire. -/
def Agent.pipelineSnapshots (ag : Agent) (e1 e2 : Nat) : List Agent :=
  let s0 : Agent := { ag with initDuration := defaultTimerValue }
  let p1 := s0 :: ag.plugins.map
    (fun np => { s0 with currentlyProcessing := np.PluginName })
  let s1 : Agent := { s0 with
    currentlyProcessing :=
      (ag.plugins.map (fun np => np.PluginName)).getLastD ag.currentlyProcessing,
    initDuration := (e1 : Int) }
  match (ag.initPlugins e1).1 with
  | some _ => p1 ++ [s1]
  | none =>
    let s2 : Agent := { s1 with afterInitDuration := defaultTimerValue }
    let p2 := s2 :: ag.plugins.map
      (fun np => { s2 with currentlyProcessing := np.PluginName })
    let s3 : Agent := { s2 with
      currentlyProcessing :=
        (ag.plugins.map (fun np => np.PluginName)).getLastD s2.currentlyProcessing,
      afterInitDuration := (e2 : Int) }
    p1 ++ [s1] ++ p2 ++ [s3]

/-- Outcome of `Start`: the returned error (nil on success), the total
duration reported on the all-success path (`initDuration +
afterInitDuration`), and the background pipeline outcome, which is
produced regardless of which select arm fired. -/
structure StartOutcome where
  result : Option GoError
  reportedTotal : Option Int
  background : Option GoError × Agent × List Event
deriving DecidableEq

/-- `Agent.Start`: launches the pipeline and races it against the
deadline in a three-way select.  The select's nondeterministic outcome is
an oracle input: `race = none` means a pipeline signal (error or done)
arrived first; `race = some j` means the deadline fired while the
background task was at snapshot `j`.  The background task is never
cancelled, so its outcome is carried unchanged in `background` in every
case; on timeout the returned error names the `currentlyProcessing` value
of the observed snapshot. -/
def Agent.Start (ag : Agent) (e1 e2 : Nat) (race : Option Nat) : StartOutcome :=
  let bg := ag.pipeline e1 e2
  match race with
  | none =>
    match bg.1 with
    | some err => { result := some err, reportedTotal := none, background := bg }
    | none =>
      { result := none,
        reportedTotal := some (bg.2.1.initDuration + bg.2.1.afterInitDuration),
        background := bg }
  | some j =>
    let snap := (ag.pipelineSnapshots e1 e2).getD j ag
    { result := some (GoError.timeoutError snap.currentlyProcessing),
      reportedTotal := none, background := bg }

/-- Registry names in order. -/
def pluginNames (l : List NamedPlugin) : List String :=
  l.map (fun np => np.PluginName)

/-- Name carried by an `init` event. -/
def Event.initName : Event → Option String
  | .init n => some n
  | _ => none

/-- Name carried by an `afterInit` event. -/
def Event.afterInitName : Event → Option String
  | .afterInit n => some n
  | _ => none

/-- The `afterInit` events that a clean (failure-free) scan of `l`
produces: one per plugin satisfying the post-initialize capability, in
registry order. -/
def afterEvents (l : List NamedPlugin) : List Event :=
  (l.filter (fun np => np.Plugin.afterInitImpl.isSome)).map
    (fun np => Event.afterInit np.PluginName)

/-- The release events `Stop`'s loop produces on `l` (which `Stop` calls
with the reversed registry): one per entry whose wrapped plugin satisfies
the release capability, in list order. -/
def stopEvents (l : List NamedPlugin) : List Event :=
  (l.filter (fun np => np.Plugin.closeImpl.isSome)).map
    (fun np => Event.closePlugin np.PluginName)

/-- The `name ++ ": " ++ cause` pieces `Stop`'s loop accumulates on `l`,
in list order. -/
def stopFails (l : List NamedPlugin) : List String :=
  l.filterMap (fun np =>
    match np.Plugin.closeImpl with
    | some (some c) => some (np.PluginName ++ ": " ++ c)
    | _ => none)

/-- `"; "`-separated rendering of the aggregate failure pieces. -/
def joinSemi : List String → String
  | [] => ""
  | x :: xs => x ++ joinSemiTail xs
where
  joinSemiTail : List String → String
    | [] => ""
    | x :: xs => "; " ++ x ++ joinSemiTail xs

/-- The causes of the failing wrapper releases the rollback loop meets,
in visit order (index `i` down to `0`). -/
def rollFails (plugins : List NamedPlugin) : Nat → List String
  | 0 => rollFailStep plugins 0
  | i + 1 => rollFailStep plugins (i + 1) ++ rollFails plugins i
where
  rollFailStep (plugins : List NamedPlugin) (i : Nat) : List String :=
    match plugins[i]? with
    | none => []
    | some np =>
      match np.wrapperCloseImpl with
      | some (some c) => [c]
      | _ => []

/-- Release events filter (rollback-path and Stop-path alike). -/
def isReleaseEv : Event → Bool
  | .closeWrapper _ => true
  | .closePlugin _ => true
  | _ => false

/-- How `Stop`'s loop accumulates the failure pieces into `errMsg`. -/
def joinAcc (m : String) : List String → String
  | [] => m
  | x :: xs => joinAcc ((if m.length > 0 then m ++ "; " else m) ++ x) xs

theorem stopLoop_spec (l : List NamedPlugin) : ∀ m,
    stopLoop m l = (joinAcc m (stopFails l), stopEvents l) := by
  induction l with
  | nil => intro m; rfl
  | cons np rest ih =>
    intro m
    match h : np.Plugin.closeImpl with
    | none =>
      simp [stopLoop, safecloseClosePlugin, h, ih, stopFails, stopEvents,
        List.filterMap_cons, List.filter_cons, joinAcc]
    | some none =>
      simp [stopLoop, safecloseClosePlugin, h, ih, stopFails, stopEvents,
        List.filterMap_cons, List.filter_cons, joinAcc]
    | some (some c) =>
      simp [stopLoop, safecloseClosePlugin, h, ih, stopFails, stopEvents,
        List.filterMap_cons, List.filter_cons, joinAcc, String.append_assoc]

theorem joinAcc_pos (xs : List String) : ∀ m : String, 0 < m.length →
    joinAcc m xs = m ++ joinSemi.joinSemiTail xs := by
  induction xs with
  | nil => intro m _; simp [joinAcc, joinSemi.joinSemiTail]
  | cons x xs ih =>
    intro m hm
    have hite : (if m.length > 0 then m ++ "; " else m) = m ++ "; " := if_pos hm
    have hlen : 0 < ((m ++ "; ") ++ x).length := by
      simp [String.length_append]; omega
    simp only [joinAcc, hite]
    rw [ih _ hlen, joinSemi.joinSemiTail]
    simp [String.append_assoc]

theorem joinAcc_nil (xs : List String) (hx : ∀ x ∈ xs, 0 < x.length) :
    joinAcc "" xs = joinSemi xs := by
  match xs with
  | [] => rfl
  | x :: xs =>
    have hpos : 0 < x.length := hx x (List.mem_cons_self x xs)
    have hempty : ("" : String) ++ x = x := by
      cases x; rfl
    simp only [joinAcc, joinSemi]
    rw [if_neg (by simp), hempty, joinAcc_pos xs x hpos]

theorem stopFails_pos (l : List NamedPlugin) : ∀ x ∈ stopFails l, 0 < x.length := by
  induction l with
  | nil => intro x hx; simp [stopFails] at hx
  | cons np rest ih =>
    intro x hx
    simp only [stopFails, List.filterMap_cons] at hx
    match h : np.Plugin.closeImpl with
    | none => rw [h] at hx; exact ih x hx
    | some none => rw [h] at hx; exact ih x hx
    | some (some c) =>
      rw [h] at hx
      rcases List.mem_cons.mp hx with rfl | hx
      · simp only [String.length_append]
        have h2 : (": ").length = 2 := rfl
        omega
      · exact ih x hx

theorem joinSemi_pos (xs : List String) (hx : ∀ x ∈ xs, 0 < x.length)
    (hne : xs ≠ []) : 0 < (joinSemi xs).length := by
  match xs with
  | [] => exact absurd rfl hne
  | x :: xs =>
    have hpos : 0 < x.length := hx x (List.mem_cons_self x xs)
    simp only [joinSemi, String.length_append]
    omega

/-- Full characterization of `Stop`: the trace is one release per
Closeable plugin in strict reverse registry order, and the result is nil
exactly when no release failed, else the `"; "`-joined aggregate of all
`name: cause` pieces. -/
theorem stop_eq (ag : Agent) :
    ag.Stop = (if stopFails ag.plugins.reverse = [] then none
        else some (GoError.errorsNew (joinSemi (stopFails ag.plugins.reverse))),
      stopEvents ag.plugins.reverse) := by
  have h := stopLoop_spec ag.plugins.reverse ""
  have hpos := stopFails_pos ag.plugins.reverse
  simp only [Agent.Stop, h, joinAcc_nil _ hpos]
  by_cases hne : stopFails ag.plugins.reverse = []
  · simp [hne, joinSemi]
  · rw [if_pos (joinSemi_pos _ hpos hne), if_neg hne]

theorem initLoop_failed (l : List NamedPlugin) : ∀ (we : Option GoError) (c idx : Nat) (cp : String),
    initLoop true we c idx cp l =
      ⟨if l.isEmpty then c else idx + (l.length - 1), true, we,
        (pluginNames l).getLastD cp, []⟩ := by
  induction l with
  | nil => intro we c idx cp; simp [initLoop, pluginNames]
  | cons np rest ih =>
    intro we c idx cp
    have hstep : initLoop true we c idx cp (np :: rest)
        = initLoop true we idx (idx + 1) np.PluginName rest := rfl
    rw [hstep, ih]
    cases rest with
    | nil => simp [pluginNames, List.getLastD_cons]
    | cons y ys =>
      simp only [InitLoopSt.mk.injEq, List.isEmpty_cons, List.length_cons,
        pluginNames, List.map_cons, List.getLastD_cons]
      refine ⟨by simp only [Bool.false_eq_true, if_false]; omega, by simp⟩

theorem initLoop_counter (l : List NamedPlugin) : ∀ (f : Bool) (we : Option GoError)
    (c idx : Nat) (cp : String),
    (initLoop f we c idx cp l).initPluginCounter =
      if l.isEmpty then c else idx + (l.length - 1) := by
  induction l with
  | nil => intro f we c idx cp; simp [initLoop]
  | cons np rest ih =>
    intro f we c idx cp
    have htail : ∀ (g : Bool) (we2 : Option GoError),
        (initLoop g we2 idx (idx + 1) np.PluginName rest).initPluginCounter
          = idx + rest.length := by
      intro g we2
      rw [ih]
      cases rest with
      | nil => simp
      | cons y ys => simp; omega
    cases f with
    | true =>
      have hstep : initLoop true we c idx cp (np :: rest)
          = initLoop true we idx (idx + 1) np.PluginName rest := rfl
      rw [hstep, htail]
      simp
    | false =>
      match hr : np.Plugin.initRes with
      | some cause =>
        have hstep : initLoop false we c idx cp (np :: rest)
            = (fun s => { s with trace := Event.init np.PluginName :: s.trace })
              (initLoop true
                (some (GoError.initError np.PluginName cause np.Plugin.initTookNs))
                idx (idx + 1) np.PluginName rest) := by
          simp [initLoop, hr]
        rw [hstep]
        simp only [htail]
        simp
      | none =>
        have hstep : initLoop false we c idx cp (np :: rest)
            = (fun s => { s with trace := Event.init np.PluginName :: s.trace })
              (initLoop false we idx (idx + 1) np.PluginName rest) := by
          simp [initLoop, hr]
        rw [hstep]
        simp only [htail]
        simp

theorem initLoop_clean_append (A : List NamedPlugin)
    (hA : ∀ x ∈ A, x.Plugin.initRes = none) :
    ∀ (rest : List NamedPlugin) (c idx : Nat) (cp : String),
    initLoop false none c idx cp (A ++ rest) =
      (fun s => { s with trace := (pluginNames A).map Event.init ++ s.trace })
        (initLoop false none (if A.isEmpty then c else idx + (A.length - 1))
          (idx + A.length) ((pluginNames A).getLastD cp) rest) := by
  induction A with
  | nil =>
    intro rest c idx cp
    simp [pluginNames]
  | cons x A' ih =>
    intro rest c idx cp
    have hx : x.Plugin.initRes = none := hA x (List.mem_cons_self x A')
    have hA' : ∀ y ∈ A', y.Plugin.initRes = none :=
      fun y hy => hA y (List.mem_cons_of_mem x hy)
    have hstep : initLoop false none c idx cp ((x :: A') ++ rest)
        = (fun s => { s with trace := Event.init x.PluginName :: s.trace })
          (initLoop false none idx (idx + 1) x.PluginName (A' ++ rest)) := by
      simp [initLoop, hx]
    rw [hstep, ih hA' rest idx (idx + 1) x.PluginName]
    have hc : (if A'.isEmpty then idx else (idx + 1) + (A'.length - 1))
        = if (x :: A').isEmpty then c else idx + ((x :: A').length - 1) := by
      cases A' with
      | nil => simp
      | cons y ys => simp; omega
    have hidx : (idx + 1) + A'.length = idx + (x :: A').length := by
      simp; omega
    have hcp : (pluginNames A').getLastD x.PluginName
        = (pluginNames (x :: A')).getLastD cp := by
      rw [show pluginNames (x :: A') = x.PluginName :: pluginNames A' from rfl,
        List.getLastD_cons]
    rw [hc, hidx, hcp]
    simp only [pluginNames, List.map_cons, List.cons_append]

theorem initLoop_wasError_isSome (l : List NamedPlugin) :
    ∀ (c idx : Nat) (cp : String), (∃ np ∈ l, np.Plugin.initRes.isSome) →
    (initLoop false none c idx cp l).wasError.isSome := by
  induction l with
  | nil => intro c idx cp h; simp at h
  | cons np rest ih =>
    intro c idx cp h
    match hr : np.Plugin.initRes with
    | some cause =>
      have hstep : initLoop false none c idx cp (np :: rest)
          = (fun s => { s with trace := Event.init np.PluginName :: s.trace })
            (initLoop true
              (some (GoError.initError np.PluginName cause np.Plugin.initTookNs))
              idx (idx + 1) np.PluginName rest) := by
        simp [initLoop, hr]
      rw [hstep]
      rw [initLoop_failed]
      simp
    | none =>
      obtain ⟨x, hx, hxs⟩ := h
      rcases List.mem_cons.mp hx with rfl | hx'
      · rw [hr] at hxs; simp at hxs
      · have hstep : initLoop false none c idx cp (np :: rest)
            = (fun s => { s with trace := Event.init np.PluginName :: s.trace })
              (initLoop false none idx (idx + 1) np.PluginName rest) := by
          simp [initLoop, hr]
        rw [hstep]
        simpa using ih idx (idx + 1) np.PluginName ⟨x, hx', hxs⟩

theorem initLoop_trace_take (l : List NamedPlugin) :
    ∀ (f : Bool) (we : Option GoError) (c idx : Nat) (cp : String), ∃ m,
    (initLoop f we c idx cp l).trace = ((pluginNames l).take m).map Event.init := by
  induction l with
  | nil => intro f we c idx cp; exact ⟨0, by simp [initLoop]⟩
  | cons np rest ih =>
    intro f we c idx cp
    cases f with
    | true =>
      refine ⟨0, ?_⟩
      have hstep : initLoop true we c idx cp (np :: rest)
          = initLoop true we idx (idx + 1) np.PluginName rest := rfl
      rw [hstep, initLoop_failed]
      simp
    | false =>
      match hr : np.Plugin.initRes with
      | some cause =>
        refine ⟨1, ?_⟩
        have hstep : initLoop false we c idx cp (np :: rest)
            = (fun s => { s with trace := Event.init np.PluginName :: s.trace })
              (initLoop true
                (some (GoError.initError np.PluginName cause np.Plugin.initTookNs))
                idx (idx + 1) np.PluginName rest) := by
          simp [initLoop, hr]
        rw [hstep, initLoop_failed]
        simp [pluginNames]
      | none =>
        obtain ⟨m, hm⟩ := ih false we idx (idx + 1) np.PluginName
        refine ⟨m + 1, ?_⟩
        have hstep : initLoop false we c idx cp (np :: rest)
            = (fun s => { s with trace := Event.init np.PluginName :: s.trace })
              (initLoop false we idx (idx + 1) np.PluginName rest) := by
          simp [initLoop, hr]
        rw [hstep]
        simp [hm, pluginNames]

theorem afterEvents_cons_none (np : NamedPlugin) (l : List NamedPlugin)
    (h : np.Plugin.afterInitImpl = none) :
    afterEvents (np :: l) = afterEvents l := by
  simp [afterEvents, List.filter_cons, h]

theorem afterEvents_cons_some (np : NamedPlugin) (l : List NamedPlugin)
    (r : Res) (h : np.Plugin.afterInitImpl = some r) :
    afterEvents (np :: l) = Event.afterInit np.PluginName :: afterEvents l := by
  simp [afterEvents, List.filter_cons, h]

theorem afterLoop_failed (l : List NamedPlugin) :
    ∀ (we : Option GoError) (cp : String),
    afterLoop true we cp l = ⟨true, we, (pluginNames l).getLastD cp, []⟩ := by
  induction l with
  | nil => intro we cp; simp [afterLoop, pluginNames]
  | cons np rest ih =>
    intro we cp
    have hstep : afterLoop true we cp (np :: rest)
        = afterLoop true we np.PluginName rest := rfl
    rw [hstep, ih]
    rw [show pluginNames (np :: rest) = np.PluginName :: pluginNames rest from rfl,
      List.getLastD_cons]

theorem afterLoop_clean_append (A : List NamedPlugin)
    (hA : ∀ x ∈ A, ∀ c, x.Plugin.afterInitImpl ≠ some (some c)) :
    ∀ (rest : List NamedPlugin) (cp : String),
    afterLoop false none cp (A ++ rest) =
      (fun s => { s with trace := afterEvents A ++ s.trace })
        (afterLoop false none ((pluginNames A).getLastD cp) rest) := by
  induction A with
  | nil =>
    intro rest cp
    simp [pluginNames, afterEvents]
  | cons x A' ih =>
    intro rest cp
    have hx := hA x (List.mem_cons_self x A')
    have hA' : ∀ y ∈ A', ∀ c, y.Plugin.afterInitImpl ≠ some (some c) :=
      fun y hy => hA y (List.mem_cons_of_mem x hy)
    have hcp : (pluginNames A').getLastD x.PluginName
        = (pluginNames (x :: A')).getLastD cp := by
      rw [show pluginNames (x :: A') = x.PluginName :: pluginNames A' from rfl,
        List.getLastD_cons]
    match hr : x.Plugin.afterInitImpl with
    | some (some c) => exact absurd hr (hx c)
    | none =>
      have hstep : afterLoop false none cp ((x :: A') ++ rest)
          = afterLoop false none x.PluginName (A' ++ rest) := by
        simp [afterLoop, hr]
      rw [hstep, ih hA' rest x.PluginName, hcp,
        afterEvents_cons_none x A' hr]
    | some none =>
      have hstep : afterLoop false none cp ((x :: A') ++ rest)
          = (fun s => { s with trace := Event.afterInit x.PluginName :: s.trace })
            (afterLoop false none x.PluginName (A' ++ rest)) := by
        simp [afterLoop, hr]
      rw [hstep, ih hA' rest x.PluginName, hcp,
        afterEvents_cons_some x A' none hr]
      simp only [List.cons_append]

theorem afterLoop_trace_sublist (l : List NamedPlugin) :
    ∀ (f : Bool) (we : Option GoError) (cp : String), ∃ sub,
    (afterLoop f we cp l).trace = sub.map Event.afterInit
    ∧ List.Sublist sub (pluginNames l) := by
  induction l with
  | nil =>
    intro f we cp
    exact ⟨[], by simp [afterLoop], List.nil_sublist _⟩
  | cons np rest ih =>
    intro f we cp
    cases f with
    | true =>
      refine ⟨[], ?_, List.nil_sublist _⟩
      have hstep : afterLoop true we cp (np :: rest)
          = afterLoop true we np.PluginName rest := rfl
      rw [hstep, afterLoop_failed]
      simp
    | false =>
      match hr : np.Plugin.afterInitImpl with
      | none =>
        obtain ⟨sub, hs, hsub⟩ := ih false we np.PluginName
        refine ⟨sub, ?_, ?_⟩
        · have hstep : afterLoop false we cp (np :: rest)
              = afterLoop false we np.PluginName rest := by
            simp [afterLoop, hr]
          rw [hstep, hs]
        · exact hsub.trans (List.sublist_cons_self np.PluginName (pluginNames rest))
      | some none =>
        obtain ⟨sub, hs, hsub⟩ := ih false we np.PluginName
        refine ⟨np.PluginName :: sub, ?_, ?_⟩
        · have hstep : afterLoop false we cp (np :: rest)
              = (fun s => { s with trace := Event.afterInit np.PluginName :: s.trace })
                (afterLoop false we np.PluginName rest) := by
            simp [afterLoop, hr]
          rw [hstep]
          simp [hs]
        · exact hsub.cons₂ np.PluginName
      | some (some c) =>
        obtain ⟨sub, hs, hsub⟩ := ih true
          (some (GoError.afterInitError np.PluginName c np.Plugin.afterInitTookNs))
          np.PluginName
        refine ⟨np.PluginName :: sub, ?_, ?_⟩
        · have hstep : afterLoop false we cp (np :: rest)
              = (fun s => { s with trace := Event.afterInit np.PluginName :: s.trace })
                (afterLoop true
                  (some (GoError.afterInitError np.PluginName c np.Plugin.afterInitTookNs))
                  np.PluginName rest) := by
            simp [afterLoop, hr]
          rw [hstep]
          simp [hs]
        · exact hsub.cons₂ np.PluginName

theorem afterLoop_fail_head (npk : NamedPlugin) (B : List NamedPlugin)
    (cause : String) (hk : npk.Plugin.afterInitImpl = some (some cause)) (cp : String) :
    afterLoop false none cp (npk :: B) =
      ⟨true, some (GoError.afterInitError npk.PluginName cause npk.Plugin.afterInitTookNs),
        (pluginNames B).getLastD npk.PluginName, [Event.afterInit npk.PluginName]⟩ := by
  have hstep : afterLoop false none cp (npk :: B)
      = (fun s => { s with trace := Event.afterInit npk.PluginName :: s.trace })
        (afterLoop true
          (some (GoError.afterInitError npk.PluginName cause npk.Plugin.afterInitTookNs))
          npk.PluginName B) := by
    simp [afterLoop, hk]
  rw [hstep, afterLoop_failed]

theorem rollbackStep_fst (plugins : List NamedPlugin) (we : GoError) (i : Nat) :
    (rollbackStep plugins we i).1 =
      (match (rollFails.rollFailStep plugins i).getLast? with
        | none => we
        | some c => GoError.plain c) := by
  match hp : plugins[i]? with
  | none => simp [rollbackStep, rollFails.rollFailStep, hp]
  | some np =>
    match hw : np.wrapperCloseImpl with
    | none =>
      simp [rollbackStep, rollFails.rollFailStep, hp, hw, safecloseCloseWrapper]
    | some none =>
      simp [rollbackStep, rollFails.rollFailStep, hp, hw, safecloseCloseWrapper]
    | some (some c) =>
      simp [rollbackStep, rollFails.rollFailStep, hp, hw, safecloseCloseWrapper]

theorem rollbackLoop_fst (plugins : List NamedPlugin) : ∀ (i : Nat) (we : GoError),
    (rollbackLoop plugins we i).1 =
      (match (rollFails plugins i).getLast? with
        | none => we
        | some c => GoError.plain c) := by
  intro i
  induction i with
  | zero =>
    intro we
    have h := rollbackStep_fst plugins we 0
    simpa [rollbackLoop, rollFails] using h
  | succ i ih =>
    intro we
    have hl : (rollbackLoop plugins we (i + 1)).1
        = (rollbackLoop plugins (rollbackStep plugins we (i + 1)).1 i).1 := rfl
    rw [hl, ih]
    cases hrf : (rollFails plugins i).getLast? with
    | some c =>
      have hne : rollFails plugins i ≠ [] := by
        intro he; rw [he] at hrf; simp at hrf
      have happ : (rollFails plugins (i + 1)).getLast?
          = (rollFails plugins i).getLast? := by
        rw [show rollFails plugins (i + 1)
            = rollFails.rollFailStep plugins (i + 1) ++ rollFails plugins i from rfl]
        exact List.getLast?_append_of_ne_nil _ hne
      rw [happ, hrf]
    | none =>
      have hnil : rollFails plugins i = [] := by
        cases hc : rollFails plugins i with
        | nil => rfl
        | cons a as => rw [hc] at hrf; simp [List.getLast?] at hrf
      have happ : rollFails plugins (i + 1) = rollFails.rollFailStep plugins (i + 1) := by
        rw [show rollFails plugins (i + 1)
            = rollFails.rollFailStep plugins (i + 1) ++ rollFails plugins i from rfl,
          hnil, List.append_nil]
      rw [happ]
      exact rollbackStep_fst plugins we (i + 1)

theorem rollbackStep_snd_nil (plugins : List NamedPlugin)
    (h : ∀ np ∈ plugins, np.wrapperCloseImpl = none) (we : GoError) (i : Nat) :
    (rollbackStep plugins we i).2 = [] := by
  match hp : plugins[i]? with
  | none => simp [rollbackStep, hp]
  | some np =>
    have hmem : np ∈ plugins := by
      have h2 := List.getElem?_eq_some.mp hp
      obtain ⟨hlt, rfl⟩ := h2
      exact List.getElem_mem hlt
    simp [rollbackStep, hp, safecloseCloseWrapper, h np hmem]

theorem rollbackLoop_snd_nil (plugins : List NamedPlugin)
    (h : ∀ np ∈ plugins, np.wrapperCloseImpl = none) : ∀ (i : Nat) (we : GoError),
    (rollbackLoop plugins we i).2 = [] := by
  intro i
  induction i with
  | zero => intro we; exact rollbackStep_snd_nil plugins h we 0
  | succ i ih =>
    intro we
    have hl : (rollbackLoop plugins we (i + 1)).2
        = (rollbackStep plugins we (i + 1)).2
          ++ (rollbackLoop plugins (rollbackStep plugins we (i + 1)).1 i).2 := rfl
    rw [hl, rollbackStep_snd_nil plugins h we (i + 1), ih]
    rfl

theorem rollbackStep_snd_close (plugins : List NamedPlugin) (we : GoError) (i : Nat) :
    ∀ e ∈ (rollbackStep plugins we i).2, ∃ n, e = Event.closeWrapper n := by
  intro e he
  match hp : plugins[i]? with
  | none => rw [rollbackStep, hp] at he; simp at he
  | some np =>
    match hw : np.wrapperCloseImpl with
    | none =>
      rw [rollbackStep, hp] at he
      simp [safecloseCloseWrapper, hw] at he
    | some r =>
      rw [rollbackStep, hp] at he
      cases r with
      | none =>
        simp [safecloseCloseWrapper, hw] at he
        exact ⟨np.PluginName, he⟩
      | some c =>
        simp [safecloseCloseWrapper, hw] at he
        exact ⟨np.PluginName, he⟩

theorem rollbackLoop_snd_close (plugins : List NamedPlugin) : ∀ (i : Nat) (we : GoError),
    ∀ e ∈ (rollbackLoop plugins we i).2, ∃ n, e = Event.closeWrapper n := by
  intro i
  induction i with
  | zero => intro we; exact rollbackStep_snd_close plugins we 0
  | succ i ih =>
    intro we e he
    have hl : (rollbackLoop plugins we (i + 1)).2
        = (rollbackStep plugins we (i + 1)).2
          ++ (rollbackLoop plugins (rollbackStep plugins we (i + 1)).1 i).2 := rfl
    rw [hl] at he
    rcases List.mem_append.mp he with h1 | h2
    · exact rollbackStep_snd_close plugins we (i + 1) e h1
    · exact ih _ e h2

/-- Phase 1 on an all-successful registry: no error, `initDuration`
stamped, one `Init` per plugin in registry order. -/
theorem initPlugins_clean (ag : Agent) (e1 : Nat)
    (h : ∀ np ∈ ag.plugins, np.Plugin.initRes = none) :
    ag.initPlugins e1 =
      (none,
        { ag with
          currentlyProcessing :=
            (pluginNames ag.plugins).getLastD ag.currentlyProcessing,
          initDuration := (e1 : Int) },
        (pluginNames ag.plugins).map Event.init) := by
  have hclean := initLoop_clean_append ag.plugins h [] 0 0 ag.currentlyProcessing
  rw [List.append_nil] at hclean
  simp only [Agent.initPlugins, hclean]
  simp [initLoop]

/-- Phase 2 on a registry whose post-initialize calls all succeed. -/
theorem handleAfterInit_clean (b : Agent) (e2 : Nat)
    (h : ∀ np ∈ b.plugins, ∀ c, np.Plugin.afterInitImpl ≠ some (some c)) :
    b.handleAfterInit e2 =
      (none,
        { b with
          currentlyProcessing :=
            (pluginNames b.plugins).getLastD b.currentlyProcessing,
          afterInitDuration := (e2 : Int) },
        afterEvents b.plugins) := by
  have hclean := afterLoop_clean_append b.plugins h [] b.currentlyProcessing
  rw [List.append_nil] at hclean
  simp only [Agent.handleAfterInit, hclean]
  simp [afterLoop]

theorem stopEvents_mem (l : List NamedPlugin) :
    ∀ e ∈ stopEvents l, ∃ n, e = Event.closePlugin n := by
  intro e he
  simp only [stopEvents, List.mem_map] at he
  obtain ⟨np, _, rfl⟩ := he
  exact ⟨np.PluginName, rfl⟩

/-- C4: For every registry, `Stop` invokes release on every (Closeable)
plugin in strict reverse registry order, continues unconditionally past
individual release failures, aggregates every failure into a single
error naming each failing plugin together with its cause, and returns
nil if and only if every release succeeded; `Stop` on an empty registry
returns nil. -/
theorem stop_reverse_best_effort_aggregate (ag : Agent) (m : Int) :
    (ag.Stop).2 = stopEvents ag.plugins.reverse
    ∧ (ag.Stop).1 = (if stopFails ag.plugins.reverse = [] then none
        else some (GoError.errorsNew (joinSemi (stopFails ag.plugins.reverse))))
    ∧ ((ag.Stop).1 = none ↔ stopFails ag.plugins.reverse = [])
    ∧ (NewAgent m []).Stop = (none, []) := by
  have h := stop_eq ag
  refine ⟨?_, ?_, ?_, rfl⟩
  · rw [h]
  · rw [h]
  · rw [h]
    by_cases hne : stopFails ag.plugins.reverse = [] <;> simp [hne]

/-- C1 (code evaluation at the failing input): with a 2-plugin registry
whose first plugin fails `Init`, the skipped plugin at index 1 is never
initialized, yet the rollback walks the **entire** registry — release
runs on index 1 (never initialized) and then index 0 — because
`initPluginCounter` is assigned for every index, skipped ones included,
so it ends at `len-1` rather than at the failing index; the returned
error is the `InitError` naming plugin 0. -/
def agInitFail2 : Agent := NewAgent 100
  [⟨"p0", ⟨some "boom", 7, none, 0, none⟩, some none⟩,
   ⟨"p1", ⟨none, 3, none, 0, none⟩, some none⟩]

theorem initPlugins_rollback_walks_entire_registry :
    (agInitFail2.initPlugins 5).1 = some (GoError.initError "p0" "boom" 7)
    ∧ (agInitFail2.initPlugins 5).2.2
      = [Event.init "p0", Event.closeWrapper "p1", Event.closeWrapper "p0"]
    ∧ (agInitFail2.Start 5 0 none).result
      = some (GoError.initError "p0" "boom" 7) :=
  ⟨rfl, rfl, rfl⟩

/-- Registry for the C9 counterexample: one Closeable plugin whose
release succeeds. -/
def agStop1 : Agent := NewAgent 3 [⟨"p", ⟨none, 0, none, 0, some none⟩, none⟩]

/-- C9 counterexample: `Stop` keeps no released-state; a second `Stop`
after a successful `Stop` re-invokes release on the already-released
plugin, so the combined trace of two consecutive calls releases it
twice. -/
theorem stop_second_call_reinvokes_release_cex :
    (agStop1.Stop).1 = none
    ∧ ((agStop1.Stop).2 ++ (agStop1.Stop).2).count (Event.closePlugin "p") = 2 := by
  exact ⟨rfl, by decide⟩

/-- C9 (amended): every call to `Stop` — a repeated call included, since
the orchestrator records no already-closed state — invokes release on
every plugin satisfying the release capability. -/
theorem stop_always_releases_closeable (ag : Agent) (np : NamedPlugin)
    (h1 : np ∈ ag.plugins) (h2 : np.Plugin.closeImpl.isSome) :
    Event.closePlugin np.PluginName ∈ (ag.Stop).2 := by
  rw [stop_eq]
  simp only [stopEvents]
  exact List.mem_map_of_mem _ (List.mem_filter.mpr ⟨List.mem_reverse.mpr h1, h2⟩)

theorem stop_always_releases_closeable_witness :
    Event.closePlugin "p" ∈ (agStop1.Stop).2 :=
  stop_always_releases_closeable agStop1 ⟨"p", ⟨none, 0, none, 0, some none⟩, none⟩
    (by decide) (by decide)

/-- Registry for the C8 counterexample: phase 1 succeeds, `AfterInit`
fails, and the automatically invoked teardown also fails. -/
def agAfterFail : Agent := NewAgent 5
  [⟨"p", ⟨none, 0, some (some "afail"), 2, some (some "cfail")⟩, none⟩]

/-- C8 counterexample: on phase-2 failure the automatically invoked
teardown produced an error (`Stop` on the same registry returns it), the
teardown visibly ran (its release is in the background trace), yet
`Start` returns only the `AfterInitError` — the teardown error is
silently discarded, refuting "no error produced during Start's lifecycle
is ever silently discarded". -/
theorem afterInit_teardown_error_discarded_cex :
    (agAfterFail.Start 1 3 none).result = some (GoError.afterInitError "p" "afail" 2)
    ∧ (agAfterFail.Start 1 3 none).background.2.2
      = [Event.init "p", Event.afterInit "p", Event.closePlugin "p"]
    ∧ (agAfterFail.Stop).1 = some (GoError.errorsNew "p: cfail")
    ∧ (agAfterFail.Start 1 3 none).result ≠ some (GoError.errorsNew "p: cfail") := by
  exact ⟨rfl, rfl, rfl, by decide⟩

/-- C8 (amended): `Start` surfaces the first phase-1 or phase-2 error to
its caller exactly as received from the pipeline (no retry, suppression
or rewriting), but errors from the teardown automatically invoked on
phase-2 failure are silently discarded: `handleAfterInit` returns the
after-init loop's error irrespective of the `Stop` outcome. -/
theorem start_surfaces_pipeline_error_verbatim (ag : Agent) (e1 e2 : Nat)
    (err : GoError) (h : (ag.pipeline e1 e2).1 = some err) :
    (ag.Start e1 e2 none).result = some err
    ∧ ∀ (b : Agent) (e : Nat),
        (b.handleAfterInit e).1
          = (afterLoop false none b.currentlyProcessing b.plugins).wasError := by
  constructor
  · simp [Agent.Start, h]
  · intro b e
    simp only [Agent.handleAfterInit]
    cases hw : (afterLoop false none b.currentlyProcessing b.plugins).wasError with
    | none => simp [hw]
    | some er => simp [hw]

theorem start_surfaces_pipeline_error_verbatim_witness :
    (agAfterFail.Start 1 3 none).result = some (GoError.afterInitError "p" "afail" 2) :=
  (start_surfaces_pipeline_error_verbatim agAfterFail 1 3
    (GoError.afterInitError "p" "afail" 2) rfl).1

/-- Registry for the C10 non-equivalence conjunct: the wrapper does not
satisfy the release capability while the wrapped plugin does (and its
release fails). -/
def agWrapGap : Agent := NewAgent 9
  [⟨"p", ⟨some "b", 1, none, 0, some (some "cfail")⟩, none⟩]

/-- C10: the phase-1 rollback applies release to the `NamedPlugin`
wrapper value itself (`agent.plugins[i]`), whereas `Stop` applies it to
the wrapped `Plugin` field (`agent.plugins[i].Plugin`): when no wrapper
satisfies the release capability the rollback runs no release at all —
whatever the wrapped plugins' capabilities — while `Stop` on the same
registry does release (and here fails), so the two teardown paths are
not equivalent for the same registry. -/
theorem rollback_releases_wrapper_not_plugin (ag : Agent) (e1 : Nat)
    (h : ∀ np ∈ ag.plugins, np.wrapperCloseImpl = none) :
    ((ag.initPlugins e1).2.2.filter isReleaseEv) = []
    ∧ (agWrapGap.initPlugins 1).2.2 = [Event.init "p"]
    ∧ (agWrapGap.initPlugins 1).1 = some (GoError.initError "p" "b" 1)
    ∧ (agWrapGap.Stop).2 = [Event.closePlugin "p"]
    ∧ (agWrapGap.Stop).1 = some (GoError.errorsNew "p: cfail") := by
  refine ⟨?_, rfl, rfl, rfl, rfl⟩
  obtain ⟨m, hm⟩ :=
    initLoop_trace_take ag.plugins false none 0 0 ag.currentlyProcessing
  have hinits : ∀ (xs : List String),
      (xs.map Event.init).filter isReleaseEv = [] := by
    intro xs
    refine List.filter_eq_nil_iff.mpr ?_
    intro a ha
    obtain ⟨n, _, rfl⟩ := List.mem_map.mp ha
    simp [isReleaseEv]
  simp only [Agent.initPlugins]
  cases hw : (initLoop false none 0 0 ag.currentlyProcessing ag.plugins).wasError with
  | none =>
    simp only [hw]
    rw [hm]
    exact hinits _
  | some e =>
    simp only [hw]
    rw [List.filter_append, hm,
      rollbackLoop_snd_nil ag.plugins h _ e, hinits _]
    rfl

theorem rollback_releases_wrapper_not_plugin_witness :
    ((agWrapGap.initPlugins 1).2.2.filter isReleaseEv) = []
    ∧ (agWrapGap.Stop).2 = [Event.closePlugin "p"] :=
  ⟨(rollback_releases_wrapper_not_plugin agWrapGap 1 (by decide)).1,
   (rollback_releases_wrapper_not_plugin agWrapGap 1 (by decide)).2.2.2.1⟩

/-- Registry for the C2 witness: two plugins, all calls succeed. -/
def agOk2 : Agent := NewAgent 50
  [⟨"a", ⟨none, 1, some none, 2, none⟩, none⟩,
   ⟨"b", ⟨none, 1, none, 0, none⟩, none⟩]

/-- C2: for every registry in which every `Init` call and every
`AfterInit` call succeeds, `Start` (with the pipeline winning the race)
returns nil, both phase duration fields are stamped with their measured
elapsed times — hence neither holds the `-1` sentinel — and the reported
total equals `initDuration + afterInitDuration`. -/
theorem start_all_success_reports_total (ag : Agent) (e1 e2 : Nat)
    (h1 : ∀ np ∈ ag.plugins, np.Plugin.initRes = none)
    (h2 : ∀ np ∈ ag.plugins, ∀ c, np.Plugin.afterInitImpl ≠ some (some c)) :
    (ag.Start e1 e2 none).result = none
    ∧ (ag.Start e1 e2 none).background.2.1.initDuration = (e1 : Int)
    ∧ (ag.Start e1 e2 none).background.2.1.afterInitDuration = (e2 : Int)
    ∧ (ag.Start e1 e2 none).background.2.1.initDuration ≠ defaultTimerValue
    ∧ (ag.Start e1 e2 none).background.2.1.afterInitDuration ≠ defaultTimerValue
    ∧ (ag.Start e1 e2 none).reportedTotal
        = some ((ag.Start e1 e2 none).background.2.1.initDuration
            + (ag.Start e1 e2 none).background.2.1.afterInitDuration)
    ∧ (ag.Start e1 e2 none).reportedTotal = some ((e1 : Int) + (e2 : Int)) := by
  have hip := initPlugins_clean ag e1 h1
  have hai := handleAfterInit_clean
    { ag with
      currentlyProcessing :=
        (pluginNames ag.plugins).getLastD ag.currentlyProcessing,
      initDuration := (e1 : Int) } e2 (by simpa using h2)
  have hpipe : ag.pipeline e1 e2 =
      (none,
        { ag with
          currentlyProcessing :=
            (pluginNames ag.plugins).getLastD
              ((pluginNames ag.plugins).getLastD ag.currentlyProcessing),
          initDuration := (e1 : Int),
          afterInitDuration := (e2 : Int) },
        (pluginNames ag.plugins).map Event.init ++ afterEvents ag.plugins) := by
    simp only [Agent.pipeline, hip, hai]
  have he1 : (e1 : Int) ≠ defaultTimerValue := by
    simp only [defaultTimerValue]; omega
  have he2 : (e2 : Int) ≠ defaultTimerValue := by
    simp only [defaultTimerValue]; omega
  refine ⟨?_, ?_, ?_, ?_, ?_, ?_, ?_⟩ <;>
    simp [Agent.Start, hpipe, he1, he2]

theorem start_all_success_reports_total_witness :
    (agOk2.Start 4 6 none).result = none
    ∧ (agOk2.Start 4 6 none).reportedTotal = some 10 := by
  have h := start_all_success_reports_total agOk2 4 6 (by decide)
    (by
      intro np hnp c
      simp only [agOk2, NewAgent, List.mem_cons, List.not_mem_nil, or_false] at hnp
      rcases hnp with rfl | rfl <;> simp)
  exact ⟨h.1, by rw [h.2.2.2.2.2.2]; rfl⟩

/-- Phase 2 with a first post-initialize failure at the entry `npk`:
the error names `npk`, the trace holds the after-init calls of the clean
prefix plus the failing one, followed by the **full** `Stop` teardown of
the entire registry in reverse order (whose own error is discarded). -/
theorem handleAfterInit_fail (b : Agent) (e2 : Nat) (A B : List NamedPlugin)
    (npk : NamedPlugin) (cause : String)
    (hreg : b.plugins = A ++ npk :: B)
    (hA : ∀ np ∈ A, ∀ c, np.Plugin.afterInitImpl ≠ some (some c))
    (hk : npk.Plugin.afterInitImpl = some (some cause)) :
    (b.handleAfterInit e2).1
      = some (GoError.afterInitError npk.PluginName cause npk.Plugin.afterInitTookNs)
    ∧ (b.handleAfterInit e2).2.2
      = (afterEvents A ++ [Event.afterInit npk.PluginName])
        ++ stopEvents b.plugins.reverse := by
  have hloop : afterLoop false none b.currentlyProcessing b.plugins
      = ⟨true,
          some (GoError.afterInitError npk.PluginName cause npk.Plugin.afterInitTookNs),
          (pluginNames B).getLastD npk.PluginName,
          afterEvents A ++ [Event.afterInit npk.PluginName]⟩ := by
    rw [hreg, afterLoop_clean_append A hA (npk :: B) b.currentlyProcessing,
      afterLoop_fail_head npk B cause hk ((pluginNames A).getLastD b.currentlyProcessing)]
  constructor
  · simp only [Agent.handleAfterInit, hloop]
  · simp only [Agent.handleAfterInit, hloop]
    rw [stop_eq]

/-- C3: if all plugins pass phase 1 and `npk` (at index `A.length`) is
the first whose `AfterInit` fails, no post-initialize call after it runs
(the background trace holds only the clean prefix's after-init events
plus the failing one), the **full** `Stop` teardown runs across the
entire registry in reverse order, and `Start` returns the
`AfterInitError` naming `npk`. -/
theorem afterInit_failure_full_teardown (ag : Agent) (e1 e2 : Nat)
    (A B : List NamedPlugin) (npk : NamedPlugin) (cause : String)
    (hreg : ag.plugins = A ++ npk :: B)
    (hinit : ∀ np ∈ ag.plugins, np.Plugin.initRes = none)
    (hA : ∀ np ∈ A, ∀ c, np.Plugin.afterInitImpl ≠ some (some c))
    (hk : npk.Plugin.afterInitImpl = some (some cause)) :
    (ag.Start e1 e2 none).result
      = some (GoError.afterInitError npk.PluginName cause npk.Plugin.afterInitTookNs)
    ∧ (ag.Start e1 e2 none).background.2.2
      = (pluginNames ag.plugins).map Event.init
        ++ ((afterEvents A ++ [Event.afterInit npk.PluginName])
          ++ stopEvents ag.plugins.reverse) := by
  have hip := initPlugins_clean ag e1 hinit
  have hai := handleAfterInit_fail
    { ag with
      currentlyProcessing :=
        (pluginNames ag.plugins).getLastD ag.currentlyProcessing,
      initDuration := (e1 : Int) } e2 A B npk cause (by simpa using hreg) hA hk
  have hpipe1 : (ag.pipeline e1 e2).1
      = some (GoError.afterInitError npk.PluginName cause npk.Plugin.afterInitTookNs) := by
    simp only [Agent.pipeline, hip]
    exact hai.1
  have hpipe2 : (ag.pipeline e1 e2).2.2
      = (pluginNames ag.plugins).map Event.init
        ++ ((afterEvents A ++ [Event.afterInit npk.PluginName])
          ++ stopEvents ag.plugins.reverse) := by
    simp only [Agent.pipeline, hip]
    rw [hai.2]
  constructor
  · simp only [Agent.Start]
    rw [hpipe1]
  · simp only [Agent.Start]
    rw [hpipe1]
    simp only [StartOutcome.background]
    exact hpipe2

/-- Registry for the C3 witness: `a` passes both phases, `k` fails
`AfterInit`, `b` (Closeable, also post-initializable) comes after `k`. -/
def agAF3 : Agent := NewAgent 7
  [⟨"a", ⟨none, 1, some none, 1, none⟩, none⟩,
   ⟨"k", ⟨none, 1, some (some "boom"), 4, some none⟩, none⟩,
   ⟨"b", ⟨none, 1, some none, 1, some (some "bad")⟩, none⟩]

theorem afterInit_failure_full_teardown_witness :
    (agAF3.Start 2 3 none).result = some (GoError.afterInitError "k" "boom" 4)
    ∧ (agAF3.Start 2 3 none).background.2.2
      = [Event.init "a", Event.init "k", Event.init "b",
         Event.afterInit "a", Event.afterInit "k",
         Event.closePlugin "b", Event.closePlugin "k"] := by
  have h := afterInit_failure_full_teardown agAF3 2 3
    [⟨"a", ⟨none, 1, some none, 1, none⟩, none⟩]
    [⟨"b", ⟨none, 1, some none, 1, some (some "bad")⟩, none⟩]
    ⟨"k", ⟨none, 1, some (some "boom"), 4, some none⟩, none⟩
    "boom" rfl (by decide)
    (by
      intro np hnp c
      simp only [List.mem_cons, List.not_mem_nil, or_false] at hnp
      subst hnp
      simp)
    rfl
  exact ⟨h.1, h.2⟩

/-- C7: when phase 1 fails and at least one release invoked during the
automatic rollback itself fails, the release error **replaces** the
already-recorded `InitError` — the rollback loop assigns `wasError =
err` — and `Start` returns that release error (the last failing release
in rollback visit order), a `plain` propagated plugin error rather than
any `InitError`. -/
theorem rollback_error_replaces_init_error (ag : Agent) (e1 e2 : Nat) (c : String)
    (hfail : ∃ np ∈ ag.plugins, np.Plugin.initRes.isSome)
    (hlast : (rollFails ag.plugins (ag.plugins.length - 1)).getLast? = some c) :
    (ag.initPlugins e1).1 = some (GoError.plain c)
    ∧ (ag.Start e1 e2 none).result = some (GoError.plain c) := by
  have hsome := initLoop_wasError_isSome ag.plugins 0 0 ag.currentlyProcessing hfail
  obtain ⟨e0, he0⟩ := Option.isSome_iff_exists.mp hsome
  have hne : ¬ ag.plugins.isEmpty = true := by
    obtain ⟨np, hnp, _⟩ := hfail
    cases hpl : ag.plugins with
    | nil => rw [hpl] at hnp; simp at hnp
    | cons x xs => simp [hpl]
  have hcounter := initLoop_counter ag.plugins false none 0 0 ag.currentlyProcessing
  rw [if_neg hne] at hcounter
  have h1 : (ag.initPlugins e1).1 = some (GoError.plain c) := by
    simp only [Agent.initPlugins, he0]
    rw [hcounter, show 0 + (ag.plugins.length - 1) = ag.plugins.length - 1 from by omega,
      rollbackLoop_fst, hlast]
  refine ⟨h1, ?_⟩
  have heta : ag.initPlugins e1
      = ((ag.initPlugins e1).1, (ag.initPlugins e1).2.1, (ag.initPlugins e1).2.2) := rfl
  have hp : (ag.pipeline e1 e2).1 = some (GoError.plain c) := by
    simp only [Agent.pipeline]
    rw [heta, h1]
  simp [Agent.Start, hp]

/-- Registry for the C7 witness: one plugin whose `Init` fails and whose
wrapper release also fails. -/
def agRb : Agent := NewAgent 9
  [⟨"q", ⟨some "b", 1, none, 0, none⟩, some (some "cl")⟩]

theorem rollback_error_replaces_init_error_witness :
    (agRb.initPlugins 1).1 = some (GoError.plain "cl")
    ∧ (agRb.Start 1 1 none).result = some (GoError.plain "cl") :=
  rollback_error_replaces_init_error agRb 1 1 "cl" (by decide) (by decide)

theorem initPlugins_snd_plugins (ag : Agent) (e1 : Nat) :
    (ag.initPlugins e1).2.1.plugins = ag.plugins := by
  simp only [Agent.initPlugins]
  cases hw : (initLoop false none 0 0 ag.currentlyProcessing ag.plugins).wasError with
  | none => simp
  | some e => simp

theorem filterMap_initName_inits (xs : List String) :
    (xs.map Event.init).filterMap Event.initName = xs := by
  induction xs with
  | nil => rfl
  | cons x xs ih => simp [Event.initName, List.filterMap_cons, ih]

theorem filterMap_afterName_afters (xs : List String) :
    (xs.map Event.afterInit).filterMap Event.afterInitName = xs := by
  induction xs with
  | nil => rfl
  | cons x xs ih => simp [Event.afterInitName, List.filterMap_cons, ih]

/-- Shape of a phase-2 trace: after-init events of a registry-order
sublist of plugin names, followed only by teardown release events. -/
theorem handleAfterInit_trace_shape (b : Agent) (e2 : Nat) :
    ∃ sub rest2,
    (b.handleAfterInit e2).2.2 = sub.map Event.afterInit ++ rest2
    ∧ (∀ e ∈ rest2, ∃ n, e = Event.closePlugin n)
    ∧ List.Sublist sub (pluginNames b.plugins) := by
  obtain ⟨sub, hs2, hsub⟩ :=
    afterLoop_trace_sublist b.plugins false none b.currentlyProcessing
  simp only [Agent.handleAfterInit]
  cases hw : (afterLoop false none b.currentlyProcessing b.plugins).wasError with
  | none =>
    refine ⟨sub, [], ?_, by simp, hsub⟩
    simp only [hw]
    rw [List.append_nil]
    exact hs2
  | some e =>
    refine ⟨sub, stopEvents b.plugins.reverse, ?_, ?_, hsub⟩
    · simp only [hw]
      rw [stop_eq, hs2]
    · intro ev hev
      exact stopEvents_mem _ ev hev

/-- C5: plugin operations are strictly sequential: the background trace
splits as `A2 ++ B2` where `A2` (phase 1) holds no after-init event and
`B2` (phase 2) holds no init event — so every `Init` precedes every
`AfterInit` — the `Init` events of `A2` are exactly a registry-order
prefix of the plugin names, and the `AfterInit` events of `B2` are a
registry-order sublist of the plugin names: no reordering in either
phase. -/
theorem pipeline_strictly_sequential (ag : Agent) (e1 e2 : Nat) :
    ∃ A2 B2 m sub,
    (ag.pipeline e1 e2).2.2 = A2 ++ B2
    ∧ (∀ e ∈ A2, e.afterInitName = none)
    ∧ (∀ e ∈ B2, e.initName = none)
    ∧ A2.filterMap Event.initName = (pluginNames ag.plugins).take m
    ∧ B2.filterMap Event.afterInitName = sub
    ∧ List.Sublist sub (pluginNames ag.plugins) := by
  obtain ⟨m, hm⟩ :=
    initLoop_trace_take ag.plugins false none 0 0 ag.currentlyProcessing
  have heta : ag.initPlugins e1
      = ((ag.initPlugins e1).1, (ag.initPlugins e1).2.1, (ag.initPlugins e1).2.2) := rfl
  cases hw : (initLoop false none 0 0 ag.currentlyProcessing ag.plugins).wasError with
  | some e0 =>
    have hip1 : (ag.initPlugins e1).1
        = some (rollbackLoop ag.plugins e0
            (initLoop false none 0 0 ag.currentlyProcessing ag.plugins).initPluginCounter).1 := by
      simp only [Agent.initPlugins, hw]
    have hip3 : (ag.initPlugins e1).2.2
        = (initLoop false none 0 0 ag.currentlyProcessing ag.plugins).trace
          ++ (rollbackLoop ag.plugins e0
              (initLoop false none 0 0 ag.currentlyProcessing ag.plugins).initPluginCounter).2 := by
      simp only [Agent.initPlugins, hw]
    have hpipe : (ag.pipeline e1 e2).2.2 = (ag.initPlugins e1).2.2 := by
      simp only [Agent.pipeline]
      rw [heta, hip1]
    refine ⟨(ag.initPlugins e1).2.2, [], m, [], by rw [List.append_nil, hpipe], ?_,
      by simp, ?_, rfl, List.nil_sublist _⟩
    · intro e he
      rw [hip3] at he
      rcases List.mem_append.mp he with h1 | h2
      · rw [hm] at h1
        obtain ⟨n, _, rfl⟩ := List.mem_map.mp h1
        rfl
      · obtain ⟨n, rfl⟩ := rollbackLoop_snd_close ag.plugins _ _ e h2
        rfl
    · rw [hip3, List.filterMap_append, hm, filterMap_initName_inits]
      rw [List.filterMap_eq_nil_iff.mpr, List.append_nil]
      intro e he
      obtain ⟨n, rfl⟩ := rollbackLoop_snd_close ag.plugins _ _ e he
      rfl
  | none =>
    have hip1 : (ag.initPlugins e1).1 = none := by
      simp only [Agent.initPlugins, hw]
    have hip3 : (ag.initPlugins e1).2.2
        = (initLoop false none 0 0 ag.currentlyProcessing ag.plugins).trace := by
      simp only [Agent.initPlugins, hw]
    have hpipe : (ag.pipeline e1 e2).2.2
        = (ag.initPlugins e1).2.2 ++ ((ag.initPlugins e1).2.1.handleAfterInit e2).2.2 := by
      simp only [Agent.pipeline]
      rw [heta, hip1]
    obtain ⟨sub, rest2, hB, hrest, hsub⟩ :=
      handleAfterInit_trace_shape (ag.initPlugins e1).2.1 e2
    rw [initPlugins_snd_plugins] at hsub
    refine ⟨(ag.initPlugins e1).2.2, ((ag.initPlugins e1).2.1.handleAfterInit e2).2.2,
      m, sub, hpipe, ?_, ?_, ?_, ?_, hsub⟩
    · intro e he
      rw [hip3, hm] at he
      obtain ⟨n, _, rfl⟩ := List.mem_map.mp he
      rfl
    · intro e he
      rw [hB] at he
      rcases List.mem_append.mp he with h1 | h2
      · obtain ⟨n, _, rfl⟩ := List.mem_map.mp h1
        rfl
      · obtain ⟨n, rfl⟩ := hrest e h2
        rfl
    · rw [hip3, hm, filterMap_initName_inits]
    · rw [hB, List.filterMap_append, filterMap_afterName_afters]
      rw [List.filterMap_eq_nil_iff.mpr, List.append_nil]
      intro e he
      obtain ⟨n, rfl⟩ := hrest e he
      rfl

theorem getD_append_head_map (s0 : Agent) (f : NamedPlugin → Agent)
    (l : List NamedPlugin) (rest : List Agent) (d : Agent) (j : Nat)
    (hj : j ≤ l.length) (hs0 : s0.initDuration = defaultTimerValue)
    (hf : ∀ np, (f np).initDuration = defaultTimerValue) :
    (((s0 :: l.map f) ++ rest).getD j d).initDuration = defaultTimerValue := by
  have hjlen : j < (s0 :: l.map f).length := by simp; omega
  rw [List.getD_eq_getElem?_getD, List.getElem?_append_left hjlen]
  cases j with
  | zero => simpa using hs0
  | succ i =>
    have hi : i < l.length := by omega
    rw [List.getElem?_cons_succ, List.getElem?_map, List.getElem?_eq_getElem hi]
    simpa using hf _

/-- All snapshots taken during the phase-1 loop (the initial
`initDuration := -1` write and each per-plugin `currentlyProcessing`
write) still carry the `-1` sentinel in `initDuration`. -/
theorem pipelineSnapshots_phase1_sentinel (ag : Agent) (e1 e2 j : Nat)
    (hj : j ≤ ag.plugins.length) :
    ((ag.pipelineSnapshots e1 e2).getD j ag).initDuration = defaultTimerValue := by
  simp only [Agent.pipelineSnapshots]
  cases hw : (ag.initPlugins e1).1 with
  | some e =>
    simp only [hw]
    exact getD_append_head_map _ _ _ _ _ j hj rfl (fun np => rfl)
  | none =>
    simp only [hw]
    rw [List.append_assoc, List.append_assoc]
    exact getD_append_head_map _ _ _ _ _ j hj rfl (fun np => rfl)

/-- C6: if the deadline fires while the background pipeline is at **any**
instant `j` — phase-1, phase-2 or rollback alike — `Start` returns a
timeout error naming exactly the `currentlyProcessing` value of that
snapshot, and the background pipeline is not cancelled: its outcome is
the unchanged `pipeline` result, identical to the one the non-timeout
path would observe, and it is absent from the returned error.  If the
instant lies inside phase 1 (snapshot `j ≤ N`, the first plugin's `Init`
still pending included), `initDuration` still holds the `-1` sentinel at
that moment. -/
theorem timeout_names_in_flight_plugin (ag : Agent) (e1 e2 j : Nat) :
    (ag.Start e1 e2 (some j)).result
      = some (GoError.timeoutError
          (((ag.pipelineSnapshots e1 e2).getD j ag).currentlyProcessing))
    ∧ (j ≤ ag.plugins.length →
        ((ag.pipelineSnapshots e1 e2).getD j ag).initDuration = defaultTimerValue)
    ∧ (ag.Start e1 e2 (some j)).background = ag.pipeline e1 e2
    ∧ (ag.Start e1 e2 (some j)).background = (ag.Start e1 e2 none).background := by
  refine ⟨rfl, fun hj => pipelineSnapshots_phase1_sentinel ag e1 e2 j hj, rfl, ?_⟩
  simp only [Agent.Start]
  cases hb : (ag.pipeline e1 e2).1 with
  | some err => simp [hb]
  | none => simp [hb]

/-- Registry for the C6 witness. -/
def agW6 : Agent := NewAgent 9 [⟨"r", ⟨none, 1, some none, 1, none⟩, none⟩]

theorem timeout_names_in_flight_plugin_witness :
    (agW6.Start 4 6 (some 1)).result = some (GoError.timeoutError "r")
    ∧ ((agW6.pipelineSnapshots 4 6).getD 1 agW6).initDuration = defaultTimerValue
    ∧ (agW6.Start 4 6 (some 3)).result = some (GoError.timeoutError "r")
    ∧ (agW6.Start 4 6 (some 3)).background = agW6.pipeline 4 6 := by
  have h1 := timeout_names_in_flight_plugin agW6 4 6 1
  have h3 := timeout_names_in_flight_plugin agW6 4 6 3
  exact ⟨by rw [h1.1]; rfl, h1.2.1 (by decide), by rw [h3.1]; rfl, h3.2.2.1⟩
